import Mathlib

set_option maxRecDepth 8000

/-!
Verification development for the rtfparser repository: a shallow embedding of
`src/rtfparser.py` and `src/rtfcharset.py` in Lean 4, followed by theorems that
settle the frozen claims about the parser.

The parser reads a binary file with one-byte lookahead (`f.seek(-1, 1)`), so the
byte stream is modelled as a zipper: `back` holds the already-consumed bytes
(most recent first) and `rest` the bytes still to be read.  Python's `f.read(1)`
at EOF returns the empty bytes object `b''` (modelled as `none`) and does not
move the position, while `f.seek(-1, 1)` always moves one byte backwards; both
behaviours are reproduced exactly, including the consequence that an unread
issued after an EOF read steps back over the last real byte.

Python strings may contain lone surrogates, so text is modelled as `List Nat`
of code points rather than a Lean `String`.  Decoding of a hex-escaped byte is
delegated by the source to Python's codec registry, an external collaborator;
the parse functions therefore take the codec as a parameter
(`(String → Nat → Option (List Nat)) : String → Nat → Option (List Nat)`).
-/

namespace Rtf

/-- Code points of a string literal as a list of naturals. -/
def wb (s : String) : List Nat := s.toList.map Char.toNat

/-- The seekable binary reader: `back` is the consumed input (most recent
byte first), `rest` the input still ahead of the position. -/
structure ByteStream where
  back : List Nat
  rest : List Nat
deriving DecidableEq

/-- Model of `f.read(1)`: `none` is Python's empty bytes `b''` at EOF. -/
def read1 (f : ByteStream) : Option Nat × ByteStream :=
  match f.rest with
  | [] => (none, f)
  | b :: t => (some b, ⟨b :: f.back, t⟩)

/-- Model of `f.seek(-1, 1)`.  At position 0 Python would raise `OSError`;
the parser never seeks backwards there, and we leave the stream unchanged. -/
def unread (f : ByteStream) : ByteStream :=
  match f.back with
  | [] => f
  | b :: t => ⟨t, b :: f.rest⟩

/-- Model of `f.read(n)`: returns the available bytes, at most `n`. -/
def readN (f : ByteStream) : Nat → List Nat × ByteStream
  | 0 => ([], f)
  | n + 1 =>
    match read1 f with
    | (none, f1) => ([], f1)
    | (some b, f1) =>
      let (bs, f2) := readN f1 n
      (b :: bs, f2)

/-- `META_CHARS = {'\\', '{', '}'}`. -/
def META_CHARS : List Nat := [92, 123, 125]

/-- `not_control(c)`: note that at EOF (`c = b''`) Python's `c not in META_CHARS`
is true. -/
def notControl : Option Nat → Bool
  | none => true
  | some b => !(META_CHARS.contains b)

/-- `is_letter(c)`; false on `b''`. -/
def isLetter : Option Nat → Bool
  | none => false
  | some b => (97 ≤ b && b ≤ 122) || (65 ≤ b && b ≤ 90)

/-- `is_digit(c)`; false on `b''`. -/
def isDigit : Option Nat → Bool
  | none => false
  | some b => 48 ≤ b && b ≤ 57

/-- `is_endline(c)`. -/
def isEndline : Option Nat → Bool
  | none => false
  | some b => b == 13 || b == 10

/-- Python `bytes.isspace()` on a single byte; `b''.isspace()` is false. -/
def isSpaceByte : Option Nat → Bool
  | none => false
  | some b => b == 32 || b == 9 || b == 10 || b == 13 || b == 11 || b == 12

/-- Worker for `read_into_while`: the loop reads a byte, unreads and stops when
the matcher rejects it, stops without unreading at EOF when the matcher accepts
`b''`, and otherwise accumulates the byte. -/
def readIntoWhileAux (matcher : Option Nat → Bool) :
    List Nat → List Nat → List Nat → List Nat × ByteStream
  | back, [], buf =>
    if matcher none then (buf, ⟨back, []⟩) else (buf, unread ⟨back, []⟩)
  | back, b :: t, buf =>
    if matcher (some b) then readIntoWhileAux matcher (b :: back) t (buf ++ [b])
    else (buf, ⟨back, b :: t⟩)

/-- `read_into_while(f, buf, matcher)`. -/
def readIntoWhile (matcher : Option Nat → Bool) (f : ByteStream) (buf : List Nat) :
    List Nat × ByteStream :=
  readIntoWhileAux matcher f.back f.rest buf

/-- `read_while(f, matcher)`. -/
def readWhile (matcher : Option Nat → Bool) (f : ByteStream) : List Nat × ByteStream :=
  readIntoWhile matcher f []

/-- `read_word(f)` (the result is pure ASCII letters, kept as bytes). -/
def readWord (f : ByteStream) : List Nat × ByteStream :=
  readWhile isLetter f

/-- Value of a nonempty string of decimal digit bytes. -/
def natOfDigits (ds : List Nat) : Nat :=
  ds.foldl (fun a d => a * 10 + (d - 48)) 0

/-- Python `int(buf)` for the buffers `read_number` builds: an optional `-`
followed by digits; a bare `-` raises `ValueError`. -/
def bytesToInt (buf : List Nat) : Option Int :=
  match buf with
  | [] => none
  | [45] => none
  | 45 :: ds => some (-(natOfDigits ds : Int))
  | ds => some ((natOfDigits ds : Int))

/-- `read_number(f)` with the default `None`; the outer `Option` is an
exception (`int` failing on a bare minus sign). -/
def readNumber (f : ByteStream) : Option (Option Int × ByteStream) :=
  let (c, f1) := read1 f
  if isDigit c || c == some 45 then
    match c with
    | some b =>
      let (buf, f2) := readIntoWhile isDigit f1 [b]
      match bytesToInt buf with
      | some v => some (some v, f2)
      | none => none
    | none => none
  else
    some (none, unread f1)

/-- `end_control(f)`: consume the next byte when it is whitespace
(`bytes.isspace`), otherwise unread it. -/
def endControl (f : ByteStream) : ByteStream :=
  let (c, f1) := read1 f
  if isSpaceByte c then f1 else unread f1

/-- `consume(f, expected)`: read `len(expected)` bytes and fail on mismatch. -/
def consume (f : ByteStream) (expected : List Nat) : Option ByteStream :=
  let (actual, f1) := readN f expected.length
  if actual == expected then some f1 else none

/-- `skip_chars(f, n)`: skip `n` replacement units; a control word inside the
region can still raise through `read_number`, hence the `Option`. -/
def skipChars : ByteStream → Nat → Option ByteStream
  | f, 0 => some f
  | f, n + 1 =>
    let (c, f1) := read1 f
    if c == some 92 then
      let (word, f2) := readWord f1
      if word.isEmpty then
        let (c2, f3) := read1 f2
        if c2 == some 39 then
          let (_, f4) := readN f3 2
          skipChars f4 n
        else skipChars f3 n
      else
        match readNumber f2 with
        | some (_, f3) => skipChars (endControl f3) n
        | none => none
    else if c == some 123 || c == some 125 then
      some (unread f1)
    else skipChars f1 n

/-- Values stored in a property map: Python ints, bools, strings, and `None`
(which `_plain` stores for `f` when no `\deff` was seen). -/
inductive Val where
  | i (n : Int)
  | b (v : Bool)
  | s (v : List Nat)
  | null
deriving DecidableEq

/-- `prop.get(k)`: first (only) entry with the key. -/
def propGet : List (List Nat × Val) → List Nat → Option Val
  | [], _ => none
  | pr :: m, k => if pr.1 == k then some pr.2 else propGet m k

/-- Dictionary assignment: replace in place or append (Python dicts keep
insertion order and unique keys). -/
def setAssoc {α β : Type} [BEq α] : List (α × β) → α → β → List (α × β)
  | [], k, v => [(k, v)]
  | (k', v') :: t, k, v =>
    if k' == k then (k', v) :: t else (k', v') :: setAssoc t k v

/-- `prop[k] = v`. -/
def propSet (m : List (List Nat × Val)) (k : List Nat) (v : Val) : List (List Nat × Val) :=
  setAssoc m k v

/-- `prop.pop(k, None)` (keys are unique in a Python dict, so removing every
occurrence is the same operation). -/
def propRemove : List (List Nat × Val) → List Nat → List (List Nat × Val)
  | [], _ => []
  | pr :: m, k => if pr.1 == k then propRemove m k else pr :: propRemove m k

/-- `Parser.reset(properties)` pops every key in `properties` from the map.
Written as one filter — keeping exactly the entries whose key is not in
`properties` — which `resetProps_eq_loop` proves equal to the literal
key-by-key loop `resetLoop`. -/
def resetProps (m : List (List Nat × Val)) (keys : List (List Nat)) : List (List Nat × Val) :=
  m.filter (fun pr => !(keys.contains pr.1))

/-- The literal translation of `Parser.reset`: `for name in properties:
self.prop.pop(name, None)`. -/
def resetLoop (m : List (List Nat × Val)) (keys : List (List Nat)) : List (List Nat × Val) :=
  keys.foldl propRemove m

/-- Document-charset keywords (`CHARSETS` in rtfparser.py). -/
def CHARSETS_DOC : List (List Nat × String) :=
  [(wb "ansi", "ansi"), (wb "pc", "cp437"), (wb "pca", "cp850"), (wb "mac", "macintosh")]

/-- `FONT_FAMILIES`. -/
def FONT_FAMILIES : List (List Nat) :=
  [wb "fnil", wb "froman", wb "fswiss", wb "fmodern", wb "fscript", wb "fdecor",
   wb "ftech", wb "fbidi"]

/-- `PARFMT`: the paragraph-formatting keys reset by `\pard`. -/
def PARFMT : List (List Nat) :=
  [wb "s", wb "hyphpar", wb "intbl", wb "keep", wb "nowidctlpar", wb "widctlpar",
   wb "keepn", wb "level", wb "noline", wb "outlinelevel", wb "pagebb", wb "sbys",
   wb "q", wb "fi", wb "li", wb "ri", wb "sb", wb "sa", wb "sl", wb "slmult",
   wb "subdocument", wb "rtlpar", wb "ltrpar"]

/-- `TOGGLE`. -/
def TOGGLE_WORDS : List (List Nat) :=
  [wb "b", wb "caps", wb "deleted", wb "i", wb "outl", wb "scaps", wb "shad",
   wb "strike", wb "ul", wb "v"]

/-- `CHRFMT`: the character-formatting keys reset by `\plain`. -/
def CHRFMT : List (List Nat) :=
  [wb "animtext", wb "charscalex", wb "dn", wb "embo", wb "impr", wb "sub",
   wb "expnd", wb "expndtw", wb "kerning", wb "f", wb "fs", wb "strikedl",
   wb "up", wb "super", wb "cf", wb "cb", wb "rtlch", wb "ltrch", wb "cs",
   wb "cchs", wb "lang"] ++ TOGGLE_WORDS

/-- `TEXT_INFO`. -/
def TEXT_INFO : List (List Nat) :=
  [wb "title", wb "subject", wb "author", wb "manager", wb "company",
   wb "operator", wb "category", wb "keywords", wb "comment", wb "doccomm",
   wb "hlinkbase"]

/-- `DATE_INFO`. -/
def DATE_INFO : List (List Nat) :=
  [wb "creatim", wb "revtim", wb "printim", wb "buptim"]

/-- `NUMBERING_STYLES`. -/
def NUMBERING_STYLES : List (List Nat) :=
  [wb "pncard", wb "pndec", wb "pnucltr", wb "pnucrm", wb "pnlcltr",
   wb "pnlcrm", wb "pnord", wb "pnordt"]

/-- `IGNORE_WORDS`. -/
def IGNORE_WORDS : List (List Nat) := [wb "nouicompat", wb "viewkind"]

/-- `UNSUPPORTED_DEST`. -/
def UNSUPPORTED_DEST : List (List Nat) :=
  [wb "filetbl", wb "stylesheet", wb "listtables", wb "revtbl"]

/-- The `ESCAPE` table of rtfparser.py, with each replacement string as a list
of code points exactly as the source file contains them. -/
def ESCAPE : List (List Nat × List Nat) :=
  [(wb "line", [10]), (wb "tab", [9]), (wb "emdash", [8212]), (wb "endash", [45]),
   (wb "lquote", [8216]), (wb "rquote", [8217]), (wb "ldblquote", [8220]),
   (wb "rdblquote", [8221]), (wb "bullet", [8226])]

/-- The `SPECIAL` table: `\~`, `\-`, `\_`. -/
def SPECIAL : List (Nat × Nat) := [(126, 160), (45, 173), (95, 8209)]

/-- `word.startswith(p)` on byte lists. -/
def hasPrefixB (p word : List Nat) : Bool :=
  word.take p.length == p

/-- A registered font: `family` and `charset` hold whatever property value was
current when the trailing `;` arrived (the source stores the raw values). -/
structure Font where
  name : List Nat
  family : Val
  charset : Option Val
deriving DecidableEq

/-- An entry of the colour table; the source stores the raw property values
(defaulting to the int 0). -/
structure Color where
  red : Val
  green : Val
  blue : Val
deriving DecidableEq

/-- A validated `datetime` value (Python's constructor checks the ranges). -/
structure DateTimeV where
  yr : Int
  mo : Int
  dy : Int
  hr : Int
  mins : Int
  sec : Int
deriving DecidableEq

/-- Days in a month, with Gregorian leap years, as `datetime` validates. -/
def daysInMonth (y mo : Int) : Int :=
  if mo == 2 then
    if y % 4 == 0 && (y % 100 != 0 || y % 400 == 0) then 29 else 28
  else if mo == 4 || mo == 6 || mo == 9 || mo == 11 then 30
  else 31

/-- `datetime(y, mo, d, h, mi, s)`: `None` is a raised `ValueError`. -/
def mkDatetime (y mo d h mi s : Int) : Option DateTimeV :=
  if 1 ≤ y ∧ y ≤ 9999 ∧ 1 ≤ mo ∧ mo ≤ 12 ∧ 1 ≤ d ∧ d ≤ daysInMonth y mo ∧
     0 ≤ h ∧ h ≤ 23 ∧ 0 ≤ mi ∧ mi ≤ 59 ∧ 0 ≤ s ∧ s ≤ 59 then
    some ⟨y, mo, d, h, mi, s⟩
  else none

/-- The `Numbering` destination's own fields. -/
structure Numb where
  prop : List (List Nat × Val)
  style : Option (List Nat)
  level : Int
  before : List Nat
  after : List Nat
  font_index : Option Int
  indent : Int
  start : Int
deriving DecidableEq

/-- A fresh `Numbering(self)`. -/
def Numb.init : Numb := ⟨[], none, 0, [], [], none, 0, 1⟩

/-- Target of a `TextSetter`: an `Info` text field or the numbering
`before`/`after` glyph. -/
inductive TxtTarget where
  | info (field : List Nat)
  | numbBefore
  | numbAfter
deriving DecidableEq

/-- The destinations.  `numb` denotes the parser's current `Numbering` object
(the source aliases `self.numbering` and the group's destination; only one
`Numbering` is live at a time).  `field` carries the accumulated instruction
and result strings; `fieldInstr`/`fieldResult` are its two `TextSetter`
sub-destinations, which assign back into the nearest enclosing `field`
destination on close. -/
inductive Dest where
  | root
  | output
  | nullDev
  | plainText
  | fontTable (buf : List Nat)
  | colorTable
  | numb
  | field (instruction : List Nat) (result : List Nat)
  | textSetter (target : TxtTarget) (content : List Nat)
  | timeSetter (field : List Nat)
  | fieldInstr (content : List Nat)
  | fieldResult (content : List Nat)
deriving DecidableEq

/-- One group: its optional own destination and its property map. -/
structure Frame where
  own_dest : Option Dest
  prop : List (List Nat × Val)
deriving DecidableEq

/-- `Group.open()`: the child gets a copy of the parent's property map and no
own destination.  (Never reached with an empty stack: the parse loop checks.) -/
def openChild : List Frame → List Frame
  | [] => []
  | fr :: p => Frame.mk none fr.prop :: fr :: p

/-- Parser-wide state owned by the `Parser` object itself. -/
structure Core where
  rtf_version : Int
  charset : Option String
  deff : Option Int
  fonts : List (Int × Font)
  colors : List Color
  infoText : List (List Nat × List Nat)
  infoDates : List (List Nat × DateTimeV)
  numbering : Option Numb
deriving DecidableEq

/-- State of a freshly constructed `Parser`. -/
def initCore : Core := ⟨1, none, none, [], [], [], [], none⟩

/-- The root group with its `RootDest`. -/
def rootStack : List Frame := [Frame.mk (some Dest.root) []]

/-- Events delivered to the user `Output` sink. -/
inductive Event where
  | write (text : List Nat)
  | par
  | pageBreak
  | plainText (text : List Nat)
  | hyperlink (text : List Nat) (url : List Nat)
  | numberingOn (n : Numb)
  | numberingOff (n : Numb)
  | endDoc
deriving DecidableEq

/-- Coerce a property value to an int as `datetime` would (bools are ints in
Python); strings and `None` raise `TypeError`. -/
def valAsInt : Val → Option Int
  | .i n => some n
  | .b v => some (if v then 1 else 0)
  | .s _ => none
  | .null => none

/-- A property value used as an int dict key: Python's `True`/`False` hash like
`1`/`0`.  A string or `None` key could be stored by Python but can never be
produced for `f`/`fcharset` by this parser, and no int lookup would find it;
we treat it as a failed lookup. -/
def valDictKey : Val → Option Int
  | .i n => some n
  | .b v => some (if v then 1 else 0)
  | .s _ => none
  | .null => none

/-- `range(prop.get('uc', 1))` semantics: a negative count iterates zero times,
a bool is an int, anything else raises `TypeError`. -/
def ucVal : Val → Option Nat
  | .i n => some n.toNat
  | .b v => some (if v then 1 else 0)
  | .s _ => none
  | .null => none

/-- `Parser.toggle(word, param)`: parameter equal to 0 removes the key,
anything else stores `True`. -/
def toggle (m : List (List Nat × Val)) (word : List Nat) (param : Val) : List (List Nat × Val) :=
  if param == Val.i 0 || param == Val.b false then propRemove m word
  else propSet m word (Val.b true)

/-- The `CHARSETS` table of rtfcharset.py (including the entry `1 ↦ None`,
which the lookup never reaches because `get_encoding` tests `charset == 1`
first). -/
def CHARSETS_TBL : List (Int × Option String) :=
  [(0, some "ansi"), (1, none), (2, some "ansi"), (77, some "macintosh"),
   (128, some "cp932"), (129, some "cp949"), (130, some "johab"),
   (134, some "gb2312"), (136, some "big5"), (161, some "cp1253"),
   (162, some "cp1254"), (163, some "cp1258"), (177, some "cp1255"),
   (178, some "cp1256"), (186, some "cp1257"), (204, some "cp1251"),
   (222, some "cp874"), (238, some "cp1250"), (254, some "cp437"),
   (255, some "oem")]

/-- `rtfcharset.get_encoding(charset, default)`.  The argument is the raw
`fcharset` property value (`none` when the font has no charset); the result's
outer `Option` is a raised `KeyError`, the inner one is the returned encoding
name, which is Python `None` exactly when the default was `None`. -/
def get_encoding (charset : Option Val) (dflt : Option String) : Option (Option String) :=
  match charset with
  | none => some dflt
  | some v =>
    if v == Val.null || v == Val.i 1 || v == Val.b true then some dflt
    else
      match valDictKey v with
      | some k =>
        match CHARSETS_TBL.lookup k with
        | some e => some e
        | none => none
      | none => none

/-- Python `str.split()` helper: whitespace code points. -/
def isWSCp (c : Nat) : Bool :=
  c == 32 || c == 9 || c == 10 || c == 13 || c == 11 || c == 12

/-- Worker for `splitWS`. -/
def splitWSAux : List Nat → List Nat → List (List Nat)
  | cur, [] => if cur.isEmpty then [] else [cur]
  | cur, c :: t =>
    if isWSCp c then
      if cur.isEmpty then splitWSAux [] t else cur :: splitWSAux [] t
    else splitWSAux (cur ++ [c]) t

/-- Python `str.split()` on ASCII whitespace. -/
def splitWS (s : List Nat) : List (List Nat) := splitWSAux [] s

/-- `removeprefix('"')` then `removesuffix('"')`. -/
def stripQuotes (s : List Nat) : List Nat :=
  let s1 := match s with | 34 :: t => t | _ => s
  match s1.getLast? with
  | some 34 => s1.dropLast
  | _ => s1

/-- `Destination.write` dispatch on the destination that owns the write.
`curP` is the property map of the innermost group (`self.doc.prop`).  A `none`
result is a raised exception (destinations without a `write` override, a root
write that is not NUL, a missing `f`/`family` property in the font table). -/
def destWrite (d : Dest) (curP : List (List Nat × Val)) (core : Core) (text : List Nat) :
    Option (Dest × Core × List Event) :=
  match d with
  | .root => if text == [0] then some (d, core, []) else none
  | .output => some (d, core, [Event.write text])
  | .nullDev => some (d, core, [])
  | .plainText => some (d, core, [Event.plainText text])
  | .fontTable buf =>
    let buf' := buf ++ text
    if text.getLast? == some 59 then
      match propGet curP (wb "f"), propGet curP (wb "family") with
      | some fv, some fam =>
        match valDictKey fv with
        | some k =>
          let font := Font.mk buf'.dropLast fam (propGet curP (wb "fcharset"))
          some (Dest.fontTable [], {core with fonts := setAssoc core.fonts k font}, [])
        | none => none
      | _, _ => none
    else some (Dest.fontTable buf', core, [])
  | .colorTable =>
    some (d, {core with colors := core.colors ++
      [Color.mk ((propGet curP (wb "red")).getD (Val.i 0))
                ((propGet curP (wb "green")).getD (Val.i 0))
                ((propGet curP (wb "blue")).getD (Val.i 0))]}, [])
  | .numb => none
  | .field _ _ => none
  | .timeSetter _ => none
  | .textSetter tgt content => some (.textSetter tgt (content ++ text), core, [])
  | .fieldInstr content => some (.fieldInstr (content ++ text), core, [])
  | .fieldResult content => some (.fieldResult (content ++ text), core, [])

/-- `Destination.par`: only the user `Output` sink handles it. -/
def destPar : Dest → Option (List Event)
  | .output => some [Event.par]
  | _ => none

/-- `Destination.page_break`: only the user `Output` sink handles it. -/
def destPage : Dest → Option (List Event)
  | .output => some [Event.pageBreak]
  | _ => none

/-- Assign the closing field sub-destination's content into the nearest
enclosing `field` destination (the source's `TextSetter` holds a direct object
reference; in this parser the `Field` always sits in an enclosing group). -/
def setFieldInStack (isInstr : Bool) (content : List Nat) : List Frame → Option (List Frame)
  | [] => none
  | fr :: p =>
    match fr.own_dest with
    | some (Dest.field i r) =>
      let fd := Dest.field (if isInstr then content else i) (if isInstr then r else content)
      some ({fr with own_dest := some fd} :: p)
    | _ => (setFieldInStack isInstr content p).map (fr :: ·)

/-- `Destination.close` dispatch, invoked while popping the group that owns
the destination; `curP` is that group's property map and `parent` the rest of
the stack, which field setters may update. -/
def destClose (d : Dest) (curP : List (List Nat × Val)) (core : Core) (parent : List Frame) :
    Option (List Frame × Core × List Event) :=
  match d with
  | .root | .output | .nullDev | .plainText | .fontTable _ | .colorTable =>
    some (parent, core, [])
  | .numb =>
    match core.numbering with
    | some nb => some (parent, core, [Event.numberingOn nb])
    | none => some (parent, core, [])
  | .textSetter tgt content =>
    match tgt with
    | .info fld => some (parent, {core with infoText := setAssoc core.infoText fld content}, [])
    | .numbBefore =>
      match core.numbering with
      | some nb => some (parent, {core with numbering := some {nb with before := content}}, [])
      | none => none
    | .numbAfter =>
      match core.numbering with
      | some nb => some (parent, {core with numbering := some {nb with after := content}}, [])
      | none => none
  | .timeSetter fld =>
    match propGet curP (wb "yr"), propGet curP (wb "mo"), propGet curP (wb "dy") with
    | some vy, some vmo, some vd =>
      match valAsInt vy, valAsInt vmo, valAsInt vd,
            valAsInt ((propGet curP (wb "hr")).getD (Val.i 0)),
            valAsInt ((propGet curP (wb "min")).getD (Val.i 0)),
            valAsInt ((propGet curP (wb "sec")).getD (Val.i 0)) with
      | some y, some mo, some dd, some h, some mi, some s =>
        match mkDatetime y mo dd h mi s with
        | some dt => some (parent, {core with infoDates := setAssoc core.infoDates fld dt}, [])
        | none => none
      | _, _, _, _, _, _ => none
    | _, _, _ => none
  | .field instr res =>
    match splitWS instr with
    | [] => none
    | cmd :: params =>
      if cmd == wb "HYPERLINK" then
        match params with
        | [] => none
        | p0 :: _ => some (parent, core, [Event.hyperlink res (stripQuotes p0)])
      else none
  | .fieldInstr content => (setFieldInStack true content parent).map (fun p' => (p', core, []))
  | .fieldResult content => (setFieldInStack false content parent).map (fun p' => (p', core, []))

/-- Walk up the chain to the effective destination and deliver a write there;
`curP` is the innermost group's property map. -/
def groupEffWrite (curP : List (List Nat × Val)) (core : Core) (text : List Nat) :
    List Frame → Option (List Frame × Core × List Event)
  | [] => none
  | fr :: p =>
    match fr.own_dest with
    | some d =>
      (destWrite d curP core text).map
        (fun r => ({fr with own_dest := some r.1} :: p, r.2.1, r.2.2))
    | none =>
      (groupEffWrite curP core text p).map
        (fun r => (fr :: r.1, r.2.1, r.2.2))

/-- `self.dest.write(text)`: an empty stack is `self.group = None`, whose
attribute access raises. -/
def writeTextG (gs : List Frame) (core : Core) (text : List Nat) :
    Option (List Frame × Core × List Event) :=
  match gs with
  | [] => none
  | fr :: p => groupEffWrite fr.prop core text (fr :: p)

/-- The effective destination (`Group.dest`). -/
def effDest : List Frame → Option Dest
  | [] => none
  | fr :: p =>
    match fr.own_dest with
    | some d => some d
    | none => effDest p

/-- `self.dest.par()`. -/
def parDispatch (gs : List Frame) : Option (List Event) :=
  match gs with
  | [] => none
  | _ => (effDest gs).bind destPar

/-- `self.dest.page_break()`. -/
def pageDispatch (gs : List Frame) : Option (List Event) :=
  match gs with
  | [] => none
  | _ => (effDest gs).bind destPage

/-- `self.dest = value`: store in the current group. -/
def setDestG (gs : List Frame) (d : Dest) : Option (List Frame) :=
  match gs with
  | [] => none
  | fr :: p => some ({fr with own_dest := some d} :: p)

/-- `Group.close()`: close the owned destination, return the parent. -/
def groupClose (gs : List Frame) (core : Core) : Option (List Frame × Core × List Event) :=
  match gs with
  | [] => none
  | fr :: p =>
    match fr.own_dest with
    | none => some (p, core, [])
    | some d => destClose d fr.prop core p

/-- `Parser.current_font`: `self.fonts[self.prop.get('f', self.deff)]`; a
missing key (including a `None` index) raises `KeyError`, modelled as `none`. -/
def currentFont (core : Core) (gs : List Frame) : Option Font :=
  match gs with
  | [] => none
  | fr :: _ =>
    (match propGet fr.prop (wb "f") with
     | some v => valDictKey v
     | none => core.deff).bind
      (fun k => core.fonts.lookup k)

/-- The encoding resolution performed for `\'hh`:
`get_encoding(self.current_font.charset, self.charset)`. -/
def hexEncoding (core : Core) (gs : List Frame) : Option (Option String) :=
  (currentFont core gs).bind (fun font => get_encoding font.charset core.charset)

/-- `Parser.skip_replacement(f)`: skip `prop.get('uc', 1)` units. -/
def skipReplacement (gs : List Frame) (f : ByteStream) : Option ByteStream :=
  match gs with
  | [] => none
  | fr :: _ =>
    match ucVal ((propGet fr.prop (wb "uc")).getD (Val.i 1)) with
    | some n => skipChars f n
    | none => none

/-- `u = param if param >= 0 else param + 0x10000`. -/
def unsignedOf (param : Int) : Int :=
  if 0 ≤ param then param else param + 65536

/-- The unsigned 16-bit value whose little-endian bytes `struct.pack('h', n)`
produces (two's complement). -/
def toU16 (n : Int) : Nat := (n % 65536).toNat

/-- `struct.pack('hh', a, b)`: both values must fit a signed 16-bit int. -/
def packHH (a b : Int) : Option (Nat × Nat) :=
  if -32768 ≤ a ∧ a ≤ 32767 ∧ -32768 ≤ b ∧ b ≤ 32767 then
    some (toU16 a, toU16 b)
  else none

/-- Strict UTF-16LE decoding of exactly two code units. -/
def utf16leDecodePair (u1 u2 : Nat) : Option (List Nat) :=
  if 55296 ≤ u1 ∧ u1 < 56320 then
    if 56320 ≤ u2 ∧ u2 < 57344 then
      some [65536 + (u1 - 55296) * 1024 + (u2 - 56320)]
    else none
  else if 56320 ≤ u1 ∧ u1 < 57344 then none
  else if 55296 ≤ u2 ∧ u2 < 57344 then none
  else some [u1, u2]

/-- `Parser.read_unicode(f, param)`. -/
def readUnicode (gs : List Frame) (core : Core) (f : ByteStream) (param : Int) :
    Option (List Frame × Core × ByteStream × List Event) :=
  let u := unsignedOf param
  if 55296 ≤ u ∧ u < 56320 then
    match skipReplacement gs f with
    | none => none
    | some f1 =>
      match consume f1 [92, 117] with
      | none => none
      | some f2 =>
        match readNumber f2 with
        | none => none
        | some (lowOpt, f3) =>
          let f4 := endControl f3
          match lowOpt with
          | none => none
          | some low =>
            match packHH param low with
            | none => none
            | some (u1, u2) =>
              match utf16leDecodePair u1 u2 with
              | none => none
              | some txt =>
                match writeTextG gs core txt with
                | none => none
                | some (gs', core', ev) =>
                  (skipReplacement gs' f4).map (fun f5 => (gs', core', f5, ev))
  else
    if 0 ≤ u ∧ u < 1114112 then
      match writeTextG gs core [u.toNat] with
      | none => none
      | some (gs', core', ev) =>
        (skipReplacement gs' f).map (fun f1 => (gs', core', f1, ev))
    else none

/-- Value of one hex digit byte. -/
def hexDigitVal (b : Nat) : Option Nat :=
  if 48 ≤ b ∧ b ≤ 57 then some (b - 48)
  else if 97 ≤ b ∧ b ≤ 102 then some (b - 87)
  else if 65 ≤ b ∧ b ≤ 70 then some (b - 55)
  else none

/-- Accumulate hex digits. -/
def hexDigitsValAux : List Nat → Nat → Option Nat
  | [], acc => some acc
  | b :: t, acc =>
    match hexDigitVal b with
    | some v => hexDigitsValAux t (16 * acc + v)
    | none => none

/-- `bytes([int(f.read(2), 16)])`: Python `int` strips surrounding whitespace
and accepts an optional sign; `bytes([v])` then requires `0 ≤ v < 256`.
(Digit-group underscores cannot occur in a valid 2-byte read.) -/
def hexToByte (bs : List Nat) : Option Nat :=
  let s1 := bs.dropWhile (fun b => isSpaceByte (some b))
  let s2 := (s1.reverse.dropWhile (fun b => isSpaceByte (some b))).reverse
  let body : Option Nat :=
    match s2 with
    | [] => none
    | b :: r =>
      if b == 45 then none
      else if b == 43 then (if r.isEmpty then none else hexDigitsValAux r 0)
      else hexDigitsValAux (b :: r) 0
  match body with
  | some v => if v < 256 then some v else none
  | none => none

/-- A sample codec used to instantiate concrete runs: decodes ASCII bytes to
themselves whatever the encoding name. -/
def asciiCodec : (String → Nat → Option (List Nat)) := fun _ b => if b < 128 then some [b] else none

/-- Result of looking a word up in the instruction table (`getattr(self,
'_' + word)`): not an instruction, an instruction that raised, or a result. -/
inductive NamedRes where
  | notNamed
  | errored
  | okRes (r : List Frame × Core × List Event)

/-- Call a one-parameter instruction: a missing parameter is a `TypeError`. -/
def reqParam (param : Option Int) (k : Int → NamedRes) : NamedRes :=
  match param with
  | some n => k n
  | none => .errored

/-- A no-parameter instruction that switches the destination; passing a
parameter is a `TypeError`. -/
def noArgDest (gs : List Frame) (core : Core) (param : Option Int) (d : Dest) : NamedRes :=
  match param, setDestG gs d with
  | none, some gs' => .okRes (gs', core, [])
  | _, _ => .errored

/-- A no-parameter instruction that pops property keys. -/
def propPopN (gs : List Frame) (core : Core) (param : Option Int)
    (keys : List (List Nat)) : NamedRes :=
  match param, gs with
  | none, fr :: p => .okRes ({fr with prop := resetProps fr.prop keys} :: p, core, [])
  | _, _ => .errored

/-- Update `self.numbering`; `None` raises `AttributeError`. -/
def withNumbN (gs : List Frame) (core : Core) (fn : Numb → Numb) : NamedRes :=
  match core.numbering with
  | some nb => .okRes (gs, {core with numbering := some (fn nb)}, [])
  | none => .errored

/-- The instruction table: the `_word` methods of `Parser`, dispatched by
name. -/
def handleNamed (gs : List Frame) (core : Core) (word : List Nat)
    (param : Option Int) : NamedRes :=
  if word == wb "rtf" then
    match setDestG gs Dest.output with
    | some gs' => .okRes (gs', {core with rtf_version := param.getD 1}, [])
    | none => .errored
  else if word == wb "ansicpg" then
    reqParam param fun page =>
      .okRes (gs, {core with charset := some ("cp" ++ toString page)}, [])
  else if word == wb "deff" then
    reqParam param fun n => .okRes (gs, {core with deff := some n}, [])
  else if word == wb "fonttbl" then noArgDest gs core param (Dest.fontTable [])
  else if word == wb "colortbl" then noArgDest gs core param Dest.colorTable
  else if word == wb "par" then
    match param with
    | some _ => .errored
    | none =>
      match parDispatch gs with
      | some ev => .okRes (gs, core, ev)
      | none => .errored
  else if word == wb "page" then
    match param with
    | some _ => .errored
    | none =>
      match pageDispatch gs with
      | some ev => .okRes (gs, core, ev)
      | none => .errored
  else if word == wb "ql" then propPopN gs core param [wb "q"]
  else if word == wb "ulnone" then propPopN gs core param [wb "ul"]
  else if word == wb "nosupersub" then propPopN gs core param [wb "super", wb "sub"]
  else if word == wb "nowidctlpar" then propPopN gs core param [wb "widctlpar"]
  else if word == wb "pard" then
    match param, gs with
    | none, fr :: p =>
      let gs' := {fr with prop := resetProps fr.prop PARFMT} :: p
      match core.numbering with
      | some nb => .okRes (gs', {core with numbering := none}, [Event.numberingOff nb])
      | none => .okRes (gs', core, [])
    | _, _ => .errored
  else if word == wb "plain" then
    match param, gs with
    | none, fr :: p =>
      let pr := resetProps fr.prop CHRFMT
      let fv := match core.deff with
        | some n => Val.i n
        | none => Val.null
      .okRes ({fr with prop := propSet pr (wb "f") fv} :: p, core, [])
    | _, _ => .errored
  else if word == wb "pntext" then noArgDest gs core param Dest.plainText
  else if word == wb "info" then
    match param with
    | none => .okRes (gs, core, [])
    | some _ => .errored
  else if word == wb "pn" then
    match param, setDestG gs Dest.numb with
    | none, some gs' => .okRes (gs', {core with numbering := some Numb.init}, [])
    | _, _ => .errored
  else if word == wb "pnf" then
    reqParam param fun n => withNumbN gs core fun nb => {nb with font_index := some n}
  else if word == wb "pnstart" then
    reqParam param fun n => withNumbN gs core fun nb => {nb with start := n}
  else if word == wb "pnindent" then
    reqParam param fun n => withNumbN gs core fun nb => {nb with indent := n}
  else if word == wb "pnlvl" then
    reqParam param fun n => withNumbN gs core fun nb => {nb with level := n}
  else if word == wb "pnlvlbody" then
    match param with
    | none => withNumbN gs core fun nb => {nb with level := 10}
    | some _ => .errored
  else if word == wb "pnlvlblt" then
    match param with
    | none => withNumbN gs core fun nb => {nb with level := 11}
    | some _ => .errored
  else if word == wb "pntxtb" then
    noArgDest gs core param (Dest.textSetter TxtTarget.numbBefore [])
  else if word == wb "pntxta" then
    noArgDest gs core param (Dest.textSetter TxtTarget.numbAfter [])
  else if word == wb "bin" then reqParam param fun _ => .okRes (gs, core, [])
  else if word == wb "result" then noArgDest gs core param Dest.nullDev
  else if word == wb "field" then noArgDest gs core param (Dest.field [] [])
  else if word == wb "fldinst" then
    match param, effDest gs with
    | none, some (Dest.field _ _) =>
      match setDestG gs (Dest.fieldInstr []) with
      | some gs' => .okRes (gs', core, [])
      | none => .errored
    | _, _ => .errored
  else if word == wb "fldrslt" then
    match param, effDest gs with
    | none, some (Dest.field _ _) =>
      match setDestG gs (Dest.fieldResult []) with
      | some gs' => .okRes (gs', core, [])
      | none => .errored
    | _, _ => .errored
  else .notNamed

/-- `Parser.handle_control(word, param)`. -/
def handleControl (gs : List Frame) (core : Core) (word : List Nat)
    (param : Option Int) : Option (List Frame × Core × List Event) :=
  match handleNamed gs core word param with
  | .okRes r => some r
  | .errored => none
  | .notNamed =>
    let pv : Val := match param with
      | some n => Val.i n
      | none => Val.b true
    if TOGGLE_WORDS.contains word then
      match gs with
      | fr :: p => some ({fr with prop := toggle fr.prop word pv} :: p, core, [])
      | [] => none
    else if hasPrefixB (wb "q") word then
      match gs with
      | fr :: p =>
        some ({fr with prop := propSet fr.prop (wb "q") (Val.s (word.drop 1))} :: p, core, [])
      | [] => none
    else if hasPrefixB (wb "ul") word then
      match gs with
      | fr :: p =>
        let suf := word.drop 2
        let v := if suf.isEmpty then Val.b true else Val.s suf
        some ({fr with prop := propSet fr.prop (wb "ul") v} :: p, core, [])
      | [] => none
    else if NUMBERING_STYLES.contains word then
      match core.numbering with
      | some nb => some (gs, {core with numbering := some {nb with style := some word}}, [])
      | none => none
    else if hasPrefixB (wb "pn") word then
      match core.numbering with
      | some nb =>
        some (gs, {core with numbering := some {nb with prop := propSet nb.prop (word.drop 2) pv}}, [])
      | none => none
    else if UNSUPPORTED_DEST.contains word then
      (setDestG gs Dest.nullDev).map (fun gs' => (gs', core, []))
    else
      match CHARSETS_DOC.lookup word with
      | some cs => some (gs, {core with charset := some cs}, [])
      | none =>
        if FONT_FAMILIES.contains word then
          match gs with
          | fr :: p =>
            some ({fr with prop := propSet fr.prop (wb "family") (Val.s (word.drop 1))} :: p, core, [])
          | [] => none
        else if TEXT_INFO.contains word then
          (setDestG gs (Dest.textSetter (TxtTarget.info word) [])).map
            (fun gs' => (gs', core, []))
        else if DATE_INFO.contains word then
          (setDestG gs (Dest.timeSetter word)).map (fun gs' => (gs', core, []))
        else if IGNORE_WORDS.contains word then
          some (gs, core, [])
        else
          match gs with
          | fr :: p => some ({fr with prop := propSet fr.prop word pv} :: p, core, [])
          | [] => none

/-- `Parser.try_read_dest(f)`: after `\*`, skip endlines, require `\`, read a
word; dispatch a named instruction (with no argument) or silence the
destination. -/
def tryReadDest (gs : List Frame) (core : Core) (f : ByteStream) :
    Option (List Frame × Core × ByteStream × List Event) :=
  let (_, f1) := readWhile isEndline f
  match consume f1 [92] with
  | none => none
  | some f2 =>
    let (word, f3) := readWord f2
    match handleNamed gs core word none with
    | .okRes (gs', core', ev) => some (gs', core', f3, ev)
    | .errored => none
    | .notNamed => (setDestG gs Dest.nullDev).map (fun gs' => (gs', core, f3, []))

/-- `Parser.read_control(f)`. -/
def readControl (codec : (String → Nat → Option (List Nat))) (gs : List Frame) (core : Core) (f : ByteStream) :
    Option (List Frame × Core × ByteStream × List Event) :=
  let (word, f1) := readWord f
  if word.isEmpty then
    let (c, f2) := read1 f1
    if c == some 39 then
      match currentFont core gs with
      | none => none
      | some font =>
        match get_encoding font.charset core.charset with
        | none => none
        | some encOpt =>
          let (hx, f3) := readN f2 2
          match hexToByte hx with
          | none => none
          | some bv =>
            match encOpt with
            | none => none
            | some enc =>
              match codec enc bv with
              | none => none
              | some txt =>
                (writeTextG gs core txt).map (fun r => (r.1, r.2.1, f3, r.2.2))
    else if c == some 92 || c == some 123 || c == some 125 then
      match c with
      | some cb => (writeTextG gs core [cb]).map (fun r => (r.1, r.2.1, f2, r.2.2))
      | none => none
    else
      match c.bind (fun cb => SPECIAL.lookup cb) with
      | some sp => (writeTextG gs core [sp]).map (fun r => (r.1, r.2.1, f2, r.2.2))
      | none =>
        if isEndline c then
          (parDispatch gs).map (fun ev => (gs, core, f2, ev))
        else if c == some 42 then tryReadDest gs core f2
        else none
  else
    match ESCAPE.lookup word with
    | some esc =>
      let f2 := endControl f1
      (writeTextG gs core esc).map (fun r => (r.1, r.2.1, f2, r.2.2))
    | none =>
      match readNumber f1 with
      | none => none
      | some (param, f2) =>
        let f3 := endControl f2
        if word == wb "u" then
          match param with
          | some p => readUnicode gs core f3 p
          | none => none
        else
          (handleControl gs core word param).map (fun r => (r.1, r.2.1, f3, r.2.2))

/-- Outcome of a parse: normal completion with the delivered events, a raised
exception, or exhausted fuel. -/
inductive PResult where
  | ok (events : List Event)
  | err
  | more
deriving DecidableEq

/-- `Parser.parse`: the main loop.  Each iteration reads a text run (CR/LF
discarded, ASCII only), writes it if nonempty, then dispatches on the next
byte; EOF emits `end_doc`. -/
def parseLoop (codec : (String → Nat → Option (List Nat))) : Nat → List Frame → Core → ByteStream → List Event → PResult
  | 0, _, _, _, _ => .more
  | fuel + 1, gs, core, f, acc =>
    let (raw, f1) := readWhile notControl f
    let text := raw.filter (fun b => !(b == 13) && !(b == 10))
    if !text.all (· < 128) then .err
    else
      match (if text.isEmpty then some (gs, core, ([] : List Event))
             else writeTextG gs core text) with
      | none => .err
      | some (gs1, core1, ev) =>
        match read1 f1 with
        | (some 92, f2) =>
          match readControl codec gs1 core1 f2 with
          | some (gs2, core2, f3, ev2) => parseLoop codec fuel gs2 core2 f3 (acc ++ ev ++ ev2)
          | none => .err
        | (some 123, f2) =>
          match gs1 with
          | [] => .err
          | fr :: p => parseLoop codec fuel (openChild (fr :: p)) core1 f2 (acc ++ ev)
        | (some 125, f2) =>
          match groupClose gs1 core1 with
          | some (gs2, core2, ev2) => parseLoop codec fuel gs2 core2 f2 (acc ++ ev ++ ev2)
          | none => .err
        | (none, _) => .ok (acc ++ ev ++ [Event.endDoc])
        | (some _, _) => .err

/-- Parse a whole input.  Every loop iteration that continues consumes at
least one byte, so `length + 1` units of fuel always suffice. -/
def parseBytes (codec : (String → Nat → Option (List Nat))) (input : List Nat) : PResult :=
  parseLoop codec (input.length + 1) rootStack initCore ⟨[], input⟩ []

/-- `Handler.underline`: `self.prop.get('u', False)` on the current group. -/
def underline (fr : Frame) : Val :=
  (propGet fr.prop (wb "u")).getD (Val.b false)

/-- One property mutation inside the current (innermost) group, the only kind
of property write the parser performs. -/
def mutateHead (gs : List Frame) (fn : List (List Nat × Val) → List (List Nat × Val)) : List Frame :=
  match gs with
  | [] => []
  | fr :: p => {fr with prop := fn fr.prop} :: p

/-- A group whose own destination is the user sink and whose property map is
empty, used to instantiate concrete runs. -/
def outFrame : Frame := Frame.mk (some Dest.output) []

/-! ## Lemmas about the lexer primitives -/

theorem readIntoWhileAux_append (m : Option Nat → Bool) (ds : List Nat)
    (h : ∀ b ∈ ds, m (some b) = true) :
    ∀ (back buf rest : List Nat),
      readIntoWhileAux m back (ds ++ rest) buf =
        readIntoWhileAux m (ds.reverse ++ back) rest (buf ++ ds) := by
  induction ds with
  | nil => intro back buf rest; simp
  | cons d ds ih =>
    intro back buf rest
    have hd : m (some d) = true := h d (by simp)
    have hds : ∀ b ∈ ds, m (some b) = true := fun b hb => h b (by simp [hb])
    have h2 := ih hds (d :: back) (buf ++ [d]) rest
    simp only [List.cons_append, readIntoWhileAux, hd, if_pos]
    simpa using h2

theorem readIntoWhileAux_stop (m : Option Nat → Bool) (back : List Nat) (c : Nat)
    (t buf : List Nat) (hc : m (some c) = false) :
    readIntoWhileAux m back (c :: t) buf = (buf, ⟨back, c :: t⟩) := by
  simp [readIntoWhileAux, hc]

theorem readIntoWhileAux_extends (m : Option Nat → Bool) :
    ∀ (rest back buf : List Nat), ∃ ext f1,
      readIntoWhileAux m back rest buf = (buf ++ ext, f1) := by
  intro rest
  induction rest with
  | nil =>
    intro back buf
    cases h : m none with
    | true => exact ⟨[], ⟨back, []⟩, by simp [readIntoWhileAux, h]⟩
    | false => exact ⟨[], unread ⟨back, []⟩, by simp [readIntoWhileAux, h]⟩
  | cons b t ih =>
    intro back buf
    cases h : m (some b) with
    | false => exact ⟨[], ⟨back, b :: t⟩, by simp [readIntoWhileAux, h]⟩
    | true =>
      obtain ⟨ext, f1, hEq⟩ := ih (b :: back) (buf ++ [b])
      exact ⟨b :: ext, f1, by simp [readIntoWhileAux, h, hEq]⟩

theorem readWord_letters (bs : List Nat) (h : ∀ b ∈ bs, isLetter (some b) = true)
    (back : List Nat) (c : Nat) (t : List Nat) (hc : isLetter (some c) = false) :
    readWord ⟨back, bs ++ c :: t⟩ = (bs, ⟨bs.reverse ++ back, c :: t⟩) := by
  unfold readWord readWhile readIntoWhile
  rw [readIntoWhileAux_append isLetter bs h back [] (c :: t)]
  simp [readIntoWhileAux_stop _ _ _ _ _ hc]

theorem readNumber_neg (d0 : Nat) (ds : List Nat)
    (hd : ∀ b ∈ d0 :: ds, isDigit (some b) = true) (back : List Nat) (c : Nat)
    (t : List Nat) (hc : isDigit (some c) = false) :
    readNumber ⟨back, 45 :: ((d0 :: ds) ++ c :: t)⟩ =
      some (some (-(natOfDigits (d0 :: ds) : Int)),
            ⟨(d0 :: ds).reverse ++ 45 :: back, c :: t⟩) := by
  have h1 : readIntoWhileAux isDigit (45 :: back) ((d0 :: ds) ++ c :: t) [45] =
      readIntoWhileAux isDigit ((d0 :: ds).reverse ++ 45 :: back) (c :: t) ([45] ++ (d0 :: ds)) :=
    readIntoWhileAux_append isDigit (d0 :: ds) hd (45 :: back) [45] (c :: t)
  simp only [List.cons_append] at h1
  unfold readNumber
  simp +decide [read1, readIntoWhile, h1, readIntoWhileAux_stop _ _ _ _ _ hc, bytesToInt]

theorem readN_exact (e : List Nat) : ∀ (back rest : List Nat),
    readN ⟨back, e ++ rest⟩ e.length = (e, ⟨e.reverse ++ back, rest⟩) := by
  induction e with
  | nil => intro back rest; simp [readN]
  | cons b bs ih =>
    intro back rest
    simp [readN, read1, ih (b :: back) rest]

theorem consume_exact (e back rest : List Nat) :
    consume ⟨back, e ++ rest⟩ e = some ⟨e.reverse ++ back, rest⟩ := by
  simp [consume, readN_exact]

/-! ## Arithmetic lemmas for 16-bit packing -/

theorem toU16_neg (k : Nat) (h1 : 0 < k) (h2 : k ≤ 65536) :
    toU16 (-(k : Int)) = 65536 - k := by
  unfold toU16
  have e1 : (-(k : Int) + 65536) % 65536 = (-(k : Int)) % 65536 := by
    have h3 := Int.add_mul_emod_self_left (-(k : Int)) 65536 1
    simp only [Int.mul_one] at h3
    exact h3
  have e2 : (-(k : Int) + 65536) % 65536 = -(k : Int) + 65536 := by
    apply Int.emod_eq_of_lt <;> omega
  omega

theorem toU16_of_neg_param (param : Int) (h1 : -65536 < param) (h2 : param < 0) :
    toU16 param = (param + 65536).toNat := by
  unfold toU16
  have e1 : (param + 65536) % 65536 = param % 65536 := by
    have h3 := Int.add_mul_emod_self_left param 65536 1
    simp only [Int.mul_one] at h3
    exact h3
  have e2 : (param + 65536) % 65536 = param + 65536 := by
    apply Int.emod_eq_of_lt <;> omega
  omega

/-! ## Lemmas about the property map -/

theorem propRemove_eq_filter (m : List (List Nat × Val)) (k : List Nat) :
    propRemove m k = m.filter (fun pr => !(pr.1 == k)) := by
  induction m with
  | nil => rfl
  | cons pr m ih =>
    cases h : pr.1 == k <;> simp [propRemove, List.filter_cons, h, ih]

theorem rtf_contains_cons (x k : List Nat) (ks : List (List Nat)) :
    (k :: ks).contains x = ((x == k) || ks.contains x) := by
  cases h : x == k <;> simp [List.contains, List.elem, h]

theorem rtf_mem_contains (k : List Nat) (ks : List (List Nat)) (hk : k ∈ ks) :
    ks.contains k = true := by
  induction ks with
  | nil => cases hk
  | cons k1 ks ih =>
    rcases List.mem_cons.mp hk with h | h
    · subst h
      simp [rtf_contains_cons]
    · rw [rtf_contains_cons, ih h, Bool.or_true]

theorem filter_and_filter (m : List (List Nat × Val)) (p q : List Nat × Val → Bool) :
    (m.filter p).filter q = m.filter (fun x => p x && q x) := by
  induction m with
  | nil => rfl
  | cons pr m ih =>
    cases hp : p pr <;> cases hq : q pr <;> simp [List.filter_cons, hp, hq, ih]

theorem resetProps_eq_loop (ks : List (List Nat)) :
    ∀ m : List (List Nat × Val), resetProps m ks = resetLoop m ks := by
  induction ks with
  | nil =>
    intro m
    show m.filter _ = m
    rw [List.filter_eq_self]
    intro pr _
    simp [List.contains, List.elem]
  | cons k ks ih =>
    intro m
    show m.filter _ = resetLoop (propRemove m k) ks
    rw [← ih (propRemove m k)]
    show m.filter _ = resetProps (propRemove m k) ks
    simp only [resetProps]
    rw [propRemove_eq_filter, filter_and_filter]
    apply List.filter_congr
    intro pr _
    rw [rtf_contains_cons]
    cases pr.1 == k <;> cases ks.contains pr.1 <;> rfl

theorem resetProps_idem (m : List (List Nat × Val)) (ks : List (List Nat)) :
    resetProps (resetProps m ks) ks = resetProps m ks := by
  simp only [resetProps]
  rw [filter_and_filter]
  apply List.filter_congr
  intro pr _
  exact Bool.and_self _

theorem propGet_resetProps_mem (m : List (List Nat × Val)) (ks : List (List Nat)) (k : List Nat)
    (hk : k ∈ ks) : propGet (resetProps m ks) k = none := by
  have hc : ks.contains k = true := rtf_mem_contains k ks hk
  induction m with
  | nil => rfl
  | cons pr m ih =>
    simp only [resetProps, List.filter_cons]
    cases hb : pr.1 == k with
    | true =>
      have h1 : pr.1 = k := by simpa using hb
      rw [show ks.contains pr.1 = true from h1 ▸ hc]
      exact ih
    | false =>
      cases hcp : ks.contains pr.1 with
      | true => exact ih
      | false =>
        simp only [Bool.not_false, if_pos]
        rw [propGet, if_neg (by simp [hb])]
        exact ih

/-! ## Lemmas about the group stack -/

theorem foldl_mutateHead (fs : List (List (List Nat × Val) → List (List Nat × Val))) :
    ∀ (fr : Frame) (p : List Frame), ∃ pm,
      fs.foldl mutateHead (fr :: p) = Frame.mk fr.own_dest pm :: p := by
  induction fs with
  | nil => intro fr p; exact ⟨fr.prop, by simp⟩
  | cons g fs ih =>
    intro fr p
    obtain ⟨pm, h⟩ := ih ({fr with prop := g fr.prop}) p
    exact ⟨pm, by simpa [mutateHead] using h⟩

/-! ## Facts about the escape and hex tables -/

theorem escape_facts : ∀ pr ∈ ESCAPE,
    pr.1 ≠ [] ∧ pr.1.all (fun b => isLetter (some b)) = true ∧
    ESCAPE.lookup pr.1 = some pr.2 := by decide

theorem hexDigitVal_facts (b v : Nat) (h : hexDigitVal b = some v) :
    48 ≤ b ∧ v < 16 := by
  by_cases hA : 48 ≤ b ∧ b ≤ 57
  · rw [hexDigitVal, if_pos hA] at h
    injection h with hv
    omega
  · by_cases hB : 97 ≤ b ∧ b ≤ 102
    · rw [hexDigitVal, if_neg hA, if_pos hB] at h
      injection h with hv
      omega
    · by_cases hC : 65 ≤ b ∧ b ≤ 70
      · rw [hexDigitVal, if_neg hA, if_neg hB, if_pos hC] at h
        injection h with hv
        omega
      · rw [hexDigitVal, if_neg hA, if_neg hB, if_neg hC] at h
        exact absurd h (by simp)

theorem notSpace_of_ge (b : Nat) (h : 33 ≤ b) : isSpaceByte (some b) = false := by
  simp only [isSpaceByte, Bool.or_eq_false_iff, beq_eq_false_iff_ne, ne_eq]
  omega

theorem hexToByte_two (h1 h2 v1 v2 : Nat) (ha : hexDigitVal h1 = some v1)
    (hb : hexDigitVal h2 = some v2) : hexToByte [h1, h2] = some (16 * v1 + v2) := by
  obtain ⟨hb1, hv1⟩ := hexDigitVal_facts _ _ ha
  obtain ⟨hb2, hv2⟩ := hexDigitVal_facts _ _ hb
  have ns1 := notSpace_of_ge h1 (by omega)
  have ns2 := notSpace_of_ge h2 (by omega)
  have e45 : (h1 == 45) = false := by simpa using (by omega : h1 ≠ 45)
  have e43 : (h1 == 43) = false := by simpa using (by omega : h1 ≠ 43)
  unfold hexToByte
  simp [ns1, ns2, e45, e43, hexDigitsValAux, ha, hb]
  omega

/-! ## Claim C5 — `\fcharsetN` resolution -/

/-- C5 counterexample: the claim says `N = 3` falls back to the default
encoding, but `get_encoding` has no case for 3 and `CHARSETS[3]` raises
`KeyError`. -/
theorem c5_counterexample : get_encoding (some (Val.i 3)) (some "ansi") = none := by decide

/-- C5 (amended): every `N` in the fixed table yields its listed encoding
name; `N = 1` (and a missing/`None` charset) falls back to the default;
`N = 3` and every other `N` outside the table fail with `KeyError`. -/
theorem c5_fcharset_resolution :
    (∀ d, get_encoding none d = some d) ∧
    (∀ d, get_encoding (some (Val.i 1)) d = some d) ∧
    (∀ d, get_encoding (some (Val.i 0)) d = some (some "ansi") ∧
          get_encoding (some (Val.i 2)) d = some (some "ansi") ∧
          get_encoding (some (Val.i 77)) d = some (some "macintosh") ∧
          get_encoding (some (Val.i 128)) d = some (some "cp932") ∧
          get_encoding (some (Val.i 129)) d = some (some "cp949") ∧
          get_encoding (some (Val.i 130)) d = some (some "johab") ∧
          get_encoding (some (Val.i 134)) d = some (some "gb2312") ∧
          get_encoding (some (Val.i 136)) d = some (some "big5") ∧
          get_encoding (some (Val.i 161)) d = some (some "cp1253") ∧
          get_encoding (some (Val.i 162)) d = some (some "cp1254") ∧
          get_encoding (some (Val.i 163)) d = some (some "cp1258") ∧
          get_encoding (some (Val.i 177)) d = some (some "cp1255") ∧
          get_encoding (some (Val.i 178)) d = some (some "cp1256") ∧
          get_encoding (some (Val.i 186)) d = some (some "cp1257") ∧
          get_encoding (some (Val.i 204)) d = some (some "cp1251") ∧
          get_encoding (some (Val.i 222)) d = some (some "cp874") ∧
          get_encoding (some (Val.i 238)) d = some (some "cp1250") ∧
          get_encoding (some (Val.i 254)) d = some (some "cp437") ∧
          get_encoding (some (Val.i 255)) d = some (some "oem")) ∧
    (∀ n d, n ≠ 1 → CHARSETS_TBL.lookup n = none → get_encoding (some (Val.i n)) d = none) := by
  refine ⟨fun d => rfl, fun d => rfl, fun d => ?_, fun n d hn hlk => ?_⟩
  · exact ⟨rfl, rfl, rfl, rfl, rfl, rfl, rfl, rfl, rfl, rfl, rfl, rfl, rfl, rfl, rfl, rfl, rfl, rfl, rfl⟩
  · have h1 : (Val.i n == Val.null) = false := by rfl
    have h2 : (Val.i n == Val.i 1) = false := by
      simpa using fun h => hn (by simpa using h)
    have h3 : (Val.i n == Val.b true) = false := by rfl
    simp [get_encoding, h1, h2, h3, valDictKey, hlk]

/-- C5 witness: a value outside the table fails. -/
theorem c5_witness : get_encoding (some (Val.i 300)) (some "ansi") = none :=
  c5_fcharset_resolution.2.2.2 300 (some "ansi") (by decide) (by decide)

/-! ## Claim C7 — the control-word terminator -/

/-- C7 counterexample: after a control token, a TAB byte is consumed by
`end_control`, not left in the stream as the claim asserts. -/
theorem c7_counterexample :
    endControl ⟨[], [9, 88]⟩ = ⟨[9], [88]⟩ ∧ (⟨[9], [88]⟩ : ByteStream) ≠ ⟨[], [9, 88]⟩ := by
  decide

/-- C7 (amended): `end_control` consumes exactly one trailing byte when it is
ASCII whitespace in the `bytes.isspace` sense — space, TAB, LF, VT, FF or CR —
and otherwise unreads it; a space is not the only byte eaten as terminator. -/
theorem c7_end_control :
    (∀ back b t, endControl ⟨back, b :: t⟩ =
      if isSpaceByte (some b) then ⟨b :: back, t⟩ else ⟨back, b :: t⟩) ∧
    (∀ b : Nat, isSpaceByte (some b) = true ↔
      (b = 32 ∨ b = 9 ∨ b = 10 ∨ b = 11 ∨ b = 12 ∨ b = 13)) := by
  constructor
  · intro back b t
    by_cases h : isSpaceByte (some b) = true
    · simp [endControl, read1, h]
    · have h' : isSpaceByte (some b) = false := by simpa using h
      simp [endControl, read1, h', unread]
  · intro b
    simp only [isSpaceByte, Bool.or_eq_true, beq_iff_eq]
    tauto

/-- C7 witness: a CR byte right after a control word is consumed. -/
theorem c7_witness : endControl ⟨[], [13, 65]⟩ = ⟨[13], [65]⟩ := by
  have h := c7_end_control.1 [] 13 [65]
  simpa using h

/-! ## Claim C9 — property copy-on-push -/

/-- C9: pushing a group copies the parent's property map into the child (and
gives it no own destination); after any sequence of property mutations inside
the child, popping restores the parent exactly as it was before the push. -/
theorem c9_copy_on_push (fr : Frame) (p : List Frame)
    (fs : List (List (List Nat × Val) → List (List Nat × Val))) (core : Core) :
    openChild (fr :: p) = Frame.mk none fr.prop :: fr :: p ∧
    groupClose (fs.foldl mutateHead (openChild (fr :: p))) core = some (fr :: p, core, []) := by
  constructor
  · rfl
  · obtain ⟨pm, h⟩ := foldl_mutateHead fs (Frame.mk none fr.prop) (fr :: p)
    rw [show openChild (fr :: p) = Frame.mk none fr.prop :: fr :: p from rfl, h]
    rfl

/-! ## Claim C10 — the `underline` accessor -/

/-- C10: evaluation of the code at the failing input.  After `\ul` the current
property map holds the `ul` toggle, yet `Handler.underline` reads the key `u`
(which no control word ever stores) and returns `False`. -/
theorem c10_underline_bug :
    handleControl [Frame.mk (some Dest.output) []] initCore (wb "ul") none =
      some ([Frame.mk (some Dest.output) [(wb "ul", Val.b true)]], initCore, []) ∧
    propGet [(wb "ul", Val.b true)] (wb "ul") = some (Val.b true) ∧
    underline (Frame.mk (some Dest.output) [(wb "ul", Val.b true)]) = Val.b false := by
  decide

/-! ## Claim C8 — idempotence of `\pard` -/

/-- Reduction of `handle_control('pard', None)`: paragraph formatting is reset
and any active numbering is turned off. -/
theorem handleControl_pard (od : Option Dest) (pr : List (List Nat × Val)) (p : List Frame)
    (v : Int) (cs : Option String) (df : Option Int) (fo : List (Int × Font))
    (co : List Color) (it : List (List Nat × List Nat))
    (idt : List (List Nat × DateTimeV)) (nb : Option Numb) :
    handleControl (Frame.mk od pr :: p) (Core.mk v cs df fo co it idt nb) (wb "pard") none =
      some (Frame.mk od (resetProps pr PARFMT) :: p,
            Core.mk v cs df fo co it idt none,
            match nb with
            | some x => [Event.numberingOff x]
            | none => []) := by
  cases nb <;> simp +decide [handleControl, handleNamed]

/-- Specialisation of `propGet_resetProps_mem` to a group frame. -/
theorem propGet_resetProps_mem_frame (od : Option Dest) (pr : List (List Nat × Val)) (k : List Nat)
    (hk : k ∈ PARFMT) : propGet (Frame.mk od (resetProps pr PARFMT)).prop k = none :=
  propGet_resetProps_mem pr PARFMT k hk

/-- C8: `\pard` is idempotent — a second consecutive `\pard` leaves the group
stack and parser state unchanged and emits no further events, and after a
`\pard` no paragraph-formatting key is present in the current property map. -/
theorem c8_pard_idempotent (fr : Frame) (p : List Frame) (core : Core) :
    (handleControl (fr :: p) core (wb "pard") none).isSome = true ∧
    ∀ gs1 c1 e1, handleControl (fr :: p) core (wb "pard") none = some (gs1, c1, e1) →
      (handleControl gs1 c1 (wb "pard") none = some (gs1, c1, []) ∧
       ∀ fr1 p1, gs1 = fr1 :: p1 → ∀ k ∈ PARFMT, propGet fr1.prop k = none) := by
  obtain ⟨od, pr⟩ := fr
  obtain ⟨v, cs, df, fo, co, it, idt, nb⟩ := core
  constructor
  · rw [handleControl_pard]; rfl
  · intro gs1 c1 e1 h
    rw [handleControl_pard] at h
    simp only [Option.some.injEq, Prod.mk.injEq] at h
    obtain ⟨h1, h2, h3⟩ := h
    subst h1
    subst h2
    constructor
    · rw [handleControl_pard, resetProps_idem]
    · intro fr1 p1 hfp k hk
      injection hfp with hfr hp
      rw [← hfr]
      exact propGet_resetProps_mem_frame od pr k hk

/-! ## Claim C1 — `\uN` and surrogate pairs -/

/-- C1: `read_unicode` behaves as specified.  For `\uN` with
`u = N` (if `N ≥ 0`) or `u = N + 0x10000` outside the high-surrogate range
`0xD800 ≤ u < 0xDC00`, the single code point `u` is written and then the
replacement characters are skipped.  For `u` inside that range, the parser
first skips the replacement characters of this `\u`, then requires the
literal bytes `\u`, reads a second signed integer `M` (here `-(digits)`),
consumes its terminator with `end_control`, and writes the single code point
obtained by combining `N` and `M` as a little-endian UTF-16 pair of signed
16-bit units (both must fit in 16 bits and `M` must encode a low surrogate),
before skipping replacement characters again. -/
theorem c1_unicode_escape :
    (∀ (gs gs' : List Frame) (core core' : Core) (ev : List Event) (f f1 : ByteStream)
       (param : Int),
       ¬(55296 ≤ unsignedOf param ∧ unsignedOf param < 56320) →
       0 ≤ unsignedOf param ∧ unsignedOf param < 1114112 →
       writeTextG gs core [(unsignedOf param).toNat] = some (gs', core', ev) →
       skipReplacement gs' f = some f1 →
       readUnicode gs core f param = some (gs', core', f1, ev)) ∧
    (∀ (gs gs' : List Frame) (core core' : Core) (ev : List Event) (f f5 : ByteStream)
       (bk : List Nat) (d0 : Nat) (ds : List Nat) (c : Nat) (t : List Nat) (param : Int),
       55296 ≤ unsignedOf param → unsignedOf param < 56320 →
       -32768 ≤ param → param ≤ 32767 →
       skipReplacement gs f = some ⟨bk, 92 :: 117 :: 45 :: ((d0 :: ds) ++ c :: t)⟩ →
       (∀ b ∈ d0 :: ds, isDigit (some b) = true) →
       isDigit (some c) = false →
       8193 ≤ natOfDigits (d0 :: ds) → natOfDigits (d0 :: ds) ≤ 9216 →
       writeTextG gs core [65536 + ((unsignedOf param).toNat - 55296) * 1024 +
         (65536 - natOfDigits (d0 :: ds) - 56320)] = some (gs', core', ev) →
       skipReplacement gs'
         (endControl ⟨(d0 :: ds).reverse ++ 45 :: 117 :: 92 :: bk, c :: t⟩) = some f5 →
       readUnicode gs core f param = some (gs', core', f5, ev)) := by
  constructor
  · intro gs gs' core core' ev f f1 param hrange hchr hw hskip
    simp only [readUnicode, if_neg hrange, if_pos hchr, hw, hskip, Option.map_some']
  · intro gs gs' core core' ev f f5 bk d0 ds c t param hr1 hr2 hp1 hp2 hskip1 hdig hc
      hd1 hd2 hw hskip2
    have hparamneg : param < 0 := by
      by_contra hcon
      push_neg at hcon
      have : unsignedOf param = param := by simp [unsignedOf, hcon]
      omega
    have hu : unsignedOf param = param + 65536 := by
      simp only [unsignedOf, if_neg (by omega : ¬(0 : Int) ≤ param)]
    rw [hu] at hr1 hr2 hw
    have hd0 : 0 < natOfDigits (d0 :: ds) := by omega
    have hpack : packHH param (-(natOfDigits (d0 :: ds) : Int)) =
        some ((param + 65536).toNat, 65536 - natOfDigits (d0 :: ds)) := by
      rw [packHH, if_pos ⟨hp1, hp2, by omega, by omega⟩,
        toU16_of_neg_param param (by omega) hparamneg,
        toU16_neg (natOfDigits (d0 :: ds)) hd0 (by omega)]
    have hdecode : utf16leDecodePair ((param + 65536).toNat)
        (65536 - natOfDigits (d0 :: ds)) =
        some [65536 + ((param + 65536).toNat - 55296) * 1024 +
          (65536 - natOfDigits (d0 :: ds) - 56320)] := by
      rw [utf16leDecodePair, if_pos ⟨by omega, by omega⟩, if_pos ⟨by omega, by omega⟩]
    have hcons : consume ⟨bk, 92 :: 117 :: 45 :: ((d0 :: ds) ++ c :: t)⟩ [92, 117] =
        some ⟨117 :: 92 :: bk, 45 :: ((d0 :: ds) ++ c :: t)⟩ := by
      have h := consume_exact [92, 117] bk (45 :: ((d0 :: ds) ++ c :: t))
      simpa using h
    have hrd := readNumber_neg d0 ds hdig (117 :: 92 :: bk) c t hc
    simp only [readUnicode, hskip1, hcons, hrd, hpack, hdecode, hw, hskip2,
      Option.map_some']
    rw [hu, if_pos ⟨hr1, hr2⟩]

/-- C1 witness: `舒` emits U+2014 then skips one replacement character;
`\u-10179 X \u-8704 ?` (the surrogate pair D83D/DE00) emits U+1F600. -/
theorem c1_witness :
    readUnicode [outFrame] initCore ⟨[], [63, 88]⟩ 8212 =
      some ([outFrame], initCore, ⟨[63], [88]⟩, [Event.write [8212]]) ∧
    readUnicode [outFrame] initCore ⟨[], [88, 92, 117, 45, 56, 55, 48, 52, 63, 33]⟩ (-10179) =
      some ([outFrame], initCore, ⟨[63, 52, 48, 55, 56, 45, 117, 92, 88], [33]⟩,
        [Event.write [128512]]) := by
  constructor
  · exact c1_unicode_escape.1 [outFrame] [outFrame] initCore initCore [Event.write [8212]]
      ⟨[], [63, 88]⟩ ⟨[63], [88]⟩ 8212 (by decide) (by decide) (by decide) (by decide)
  · exact c1_unicode_escape.2 [outFrame] [outFrame] initCore initCore
      [Event.write [128512]] ⟨[], [88, 92, 117, 45, 56, 55, 48, 52, 63, 33]⟩
      ⟨[63, 52, 48, 55, 56, 45, 117, 92, 88], [33]⟩ [88] 56 [55, 48, 52] 63 [33] (-10179)
      (by decide) (by decide) (by decide) (by decide) (by decide) (by decide) (by decide)
      (by decide) (by decide) (by decide) (by decide)

/-! ## Claim C4 — the concrete event sequence -/

/-- C4: parsing `{\rtf1\ansi Hello\par World\page !}` delivers exactly
`write("Hello")`, `par()`, `write("World")`, `page_break()`, `write("!")`,
`end_doc()`, in that order. -/
theorem c4_event_sequence :
    parseBytes asciiCodec (wb "\x7b\\rtf1\\ansi Hello\\par World\\page !\x7d") =
      PResult.ok [Event.write (wb "Hello"), Event.par, Event.write (wb "World"),
        Event.pageBreak, Event.write (wb "!"), Event.endDoc] := by
  decide

/-! ## Claim C2 — brace matching at end of input -/

/-- Any run of `{` ending at EOF parses to a bare `end_doc`: the parser never
checks that open groups were closed. -/
theorem parseLoop_open_groups (codec : String → Nat → Option (List Nat)) :
    ∀ (n fuel : Nat), n + 1 ≤ fuel →
    ∀ (back : List Nat) (fr : Frame) (p : List Frame) (core : Core) (acc : List Event),
      parseLoop codec fuel (fr :: p) core ⟨back, List.replicate n 123⟩ acc =
        PResult.ok (acc ++ [Event.endDoc]) := by
  intro n
  induction n with
  | zero =>
    intro fuel hf back fr p core acc
    obtain ⟨f1, rfl⟩ : ∃ f1, fuel = f1 + 1 := ⟨fuel - 1, by omega⟩
    simp +decide [parseLoop, readWhile, readIntoWhile, readIntoWhileAux, notControl, read1]
  | succ n ih =>
    intro fuel hf back fr p core acc
    obtain ⟨f1, rfl⟩ : ∃ f1, fuel = f1 + 1 := ⟨fuel - 1, by omega⟩
    have hstep := ih f1 (by omega) (123 :: back) (Frame.mk none fr.prop) (fr :: p) core acc
    simp +decide [parseLoop, readWhile, readIntoWhile, readIntoWhileAux, notControl,
      read1, List.replicate_succ, openChild]
    simpa using hstep

/-- A leading unmatched `}` closes the root group without error, leaving the
group stack empty (`self.group = None`). -/
theorem parseLoop_close_root (codec : String → Nat → Option (List Nat))
    (fuel : Nat) (rest : List Nat) (acc : List Event) :
    parseLoop codec (fuel + 1) rootStack initCore ⟨[], 125 :: rest⟩ acc =
      parseLoop codec fuel [] initCore ⟨[125], rest⟩ acc := by
  simp +decide [parseLoop, readWhile, readIntoWhile, readIntoWhileAux, notControl,
    read1, rootStack, groupClose, destClose]

/-- C2 counterexample: EOF inside an open group produces an ordinary
`end_doc` event, not a fatal error. -/
theorem c2_counterexample : parseBytes asciiCodec [123] = PResult.ok [Event.endDoc] := by
  decide

/-- C2 (amended): brace matching is not enforced at end of input — EOF with
any number of open groups emits a normal `end_doc`, and so does a trailing
unmatched `}` (which closes the root group); an unmatched `}` is fatal only
when parsing continues past it: any following text byte (other than the
discarded CR/LF), `{`, or `}` raises. -/
theorem c2_brace_handling :
    (∀ (codec : String → Nat → Option (List Nat)) (n : Nat),
       parseBytes codec (List.replicate n 123) = PResult.ok [Event.endDoc]) ∧
    (∀ (codec : String → Nat → Option (List Nat)),
       parseBytes codec [125] = PResult.ok [Event.endDoc]) ∧
    (∀ (codec : String → Nat → Option (List Nat)) (b : Nat) (t : List Nat),
       ¬b ∈ META_CHARS → b ≠ 13 → b ≠ 10 →
       parseBytes codec (125 :: b :: t) = PResult.err) ∧
    (∀ (codec : String → Nat → Option (List Nat)) (t : List Nat),
       parseBytes codec (125 :: 123 :: t) = PResult.err) ∧
    (∀ (codec : String → Nat → Option (List Nat)) (t : List Nat),
       parseBytes codec (125 :: 125 :: t) = PResult.err) := by
  have hunfold : ∀ (codec : String → Nat → Option (List Nat)) (b : Nat) (t : List Nat),
      parseBytes codec (125 :: b :: t) =
        parseLoop codec (t.length + 2) [] initCore ⟨[125], b :: t⟩ [] := by
    intro codec b t
    show parseLoop codec ((125 :: b :: t).length + 1) rootStack initCore _ [] = _
    simp only [List.length_cons]
    exact parseLoop_close_root codec (t.length + 1 + 1) (b :: t) []
  refine ⟨?_, ?_, ?_, ?_, ?_⟩
  · intro codec n
    have h := parseLoop_open_groups codec n (n + 1) (by omega) []
      (Frame.mk (some Dest.root) []) [] initCore []
    have hlen : (List.replicate n 123).length + 1 = n + 1 := by simp
    show parseLoop codec ((List.replicate n 123).length + 1) rootStack initCore _ [] = _
    rw [hlen]
    simpa [rootStack] using h
  · intro codec
    show parseLoop codec 2 rootStack initCore ⟨[], [125]⟩ [] = _
    rw [show (2 : Nat) = 1 + 1 from rfl, parseLoop_close_root codec 1 [] []]
    simp +decide [parseLoop, readWhile, readIntoWhile, readIntoWhileAux, notControl, read1]
  · intro codec b t hb h13 h10
    rw [hunfold]
    have hnb : notControl (some b) = true := by
      simp only [notControl, Bool.not_eq_true']
      simpa [META_CHARS] using hb
    obtain ⟨ext, f1, hrw⟩ := readIntoWhileAux_extends notControl t (b :: [125]) [b]
    have hrun : readIntoWhileAux notControl [125] (b :: t) [] = (b :: ext, f1) := by
      rw [show readIntoWhileAux notControl [125] (b :: t) [] =
            readIntoWhileAux notControl (b :: [125]) t [b] from by
          simp [readIntoWhileAux, hnb], hrw]
      rfl
    have hfb : (!(b == 13) && !(b == 10)) = true := by simp [h13, h10]
    show parseLoop codec (t.length + 1 + 1) [] initCore ⟨[125], b :: t⟩ [] = _
    simp only [parseLoop, readWhile, readIntoWhile, hrun, List.filter_cons, hfb, if_pos]
    cases hall : (b :: List.filter (fun x => !(x == 13) && !(x == 10)) ext).all (· < 128) with
    | false => simp [hall]
    | true => simp [hall, writeTextG]
  · intro codec t
    rw [hunfold]
    show parseLoop codec (t.length + 1 + 1) [] initCore ⟨[125], 123 :: t⟩ [] = _
    simp +decide [parseLoop, readWhile, readIntoWhile, readIntoWhileAux, notControl, read1]
  · intro codec t
    rw [hunfold]
    show parseLoop codec (t.length + 1 + 1) [] initCore ⟨[125], 125 :: t⟩ [] = _
    simp +decide [parseLoop, readWhile, readIntoWhile, readIntoWhileAux, notControl,
      read1, groupClose]

/-- C2 witness: a byte of text after an unmatched `}` is fatal. -/
theorem c2_witness : parseBytes asciiCodec [125, 65] = PResult.err :=
  c2_brace_handling.2.2.1 asciiCodec 65 [] (by decide) (by decide) (by decide)

/-! ## Claim C6 — escape control words -/

/-- C6 counterexample: `\endash` writes U+002D (hyphen-minus), not the U+2013
the claim lists. -/
theorem c6_counterexample :
    readControl asciiCodec [outFrame] initCore ⟨[92], wb "endash" ++ [32, 88]⟩ =
      some ([outFrame], initCore, ⟨[32, 104, 115, 97, 100, 110, 101, 92], [88]⟩,
        [Event.write [45]]) ∧
    (45 : Nat) ≠ 8211 := by
  constructor
  · decide
  · decide

/-- C6 (amended): for every escape control word the parser consumes the
terminator via `end_control` and writes exactly the literal of the `ESCAPE`
table — `line` LF, `tab` TAB, `emdash` U+2014, `endash` U+002D (hyphen-minus,
not U+2013), `lquote` U+2018, `rquote` U+2019, `ldblquote` U+201C,
`rdblquote` U+201D, `bullet` U+2022. -/
theorem c6_escape_words (codec : String → Nat → Option (List Nat))
    (wbts v : List Nat) (hmem : (wbts, v) ∈ ESCAPE) (gs : List Frame) (core : Core)
    (back : List Nat) (c : Nat) (t : List Nat) (hc : isLetter (some c) = false)
    (gs' : List Frame) (core' : Core) (ev : List Event)
    (hw : writeTextG gs core v = some (gs', core', ev)) :
    readControl codec gs core ⟨back, wbts ++ c :: t⟩ =
      some (gs', core', endControl ⟨wbts.reverse ++ back, c :: t⟩, ev) := by
  obtain ⟨hne, hall, hlk⟩ := escape_facts (wbts, v) hmem
  have hletters : ∀ b ∈ wbts, isLetter (some b) = true := by
    intro b hb
    simpa using List.all_eq_true.mp hall b hb
  have hword := readWord_letters wbts hletters back c t hc
  have hempty : wbts.isEmpty = false := by
    cases wbts
    · exact absurd rfl hne
    · rfl
  simp only [readControl, hword, hempty, Bool.false_eq_true, if_false, hlk, hw]
  rfl

/-- C6 witness: `\tab` followed by a space terminator writes a TAB. -/
theorem c6_witness :
    readControl asciiCodec [outFrame] initCore ⟨[], wb "tab" ++ 32 :: [33]⟩ =
      some ([outFrame], initCore, endControl ⟨(wb "tab").reverse ++ [], 32 :: [33]⟩,
        [Event.write [9]]) :=
  c6_escape_words asciiCodec (wb "tab") [9] (by decide) [outFrame] initCore [] 32 [33]
    (by decide) [outFrame] initCore [Event.write [9]] (by decide)

/-! ## Claim C3 — hex-escape charset resolution -/

/-- C3 counterexample: with no registered font (and no `\deff`), the claim
says `\'hh` still decodes using the document-level charset; in the code
`current_font` raises `KeyError` and the hex escape fails even though the
document charset is set. -/
theorem c3_counterexample :
    currentFont { initCore with charset := some "ansi" } [outFrame] = none ∧
    readControl asciiCodec [outFrame] { initCore with charset := some "ansi" }
      ⟨[92], [39, 101, 57]⟩ = none := by
  constructor
  · decide
  · decide

/-- C3 (amended): the `\'hh` byte is decoded with the encoding resolved by
`get_encoding(current_font.charset, document charset)`: if the current font
index references no registered font the escape fails (`KeyError`) instead of
falling back; if the font exists, its `fcharset` (when set and not 1) selects
the encoding and otherwise the document-level charset is used; when an
encoding is resolved the byte is decoded and written. -/
theorem c3_hex_charset_resolution :
    (∀ (core : Core) (gs : List Frame),
       currentFont core gs = none → hexEncoding core gs = none) ∧
    (∀ (core : Core) (gs : List Frame) (font : Font),
       currentFont core gs = some font →
       hexEncoding core gs = get_encoding font.charset core.charset) ∧
    (∀ (core : Core) (gs : List Frame) (font : Font),
       currentFont core gs = some font →
       (font.charset = none ∨ font.charset = some (Val.i 1)) →
       hexEncoding core gs = some core.charset) ∧
    (∀ (codec : String → Nat → Option (List Nat)) (core : Core) (fr : Frame)
       (p : List Frame) (font : Font) (enc : String) (txt : List Nat)
       (h1 h2 v1 v2 : Nat) (back t : List Nat) (gs' : List Frame) (core' : Core)
       (ev : List Event),
       currentFont core (fr :: p) = some font →
       get_encoding font.charset core.charset = some (some enc) →
       hexDigitVal h1 = some v1 → hexDigitVal h2 = some v2 →
       codec enc (16 * v1 + v2) = some txt →
       writeTextG (fr :: p) core txt = some (gs', core', ev) →
       readControl codec (fr :: p) core ⟨back, 39 :: h1 :: h2 :: t⟩ =
         some (gs', core', ⟨h2 :: h1 :: 39 :: back, t⟩, ev)) := by
  refine ⟨?_, ?_, ?_, ?_⟩
  · intro core gs h
    simp [hexEncoding, h]
  · intro core gs font h
    simp [hexEncoding, h]
  · intro core gs font h hcs
    rcases hcs with h1 | h1 <;> simp [hexEncoding, h, h1, get_encoding]
  · intro codec core fr p font enc txt h1 h2 v1 v2 back t gs' core' ev
      hcf hge ha hb hcodec hw
    have hword : readWord ⟨back, 39 :: h1 :: h2 :: t⟩ =
        ([], ⟨back, 39 :: h1 :: h2 :: t⟩) := by
      simp +decide [readWord, readWhile, readIntoWhile, readIntoWhileAux]
    have hrn := readN_exact [h1, h2] (39 :: back) t
    simp only [List.cons_append, List.nil_append, List.reverse_cons, List.reverse_nil,
      List.length_cons, List.length_nil] at hrn
    have hhex := hexToByte_two h1 h2 v1 v2 ha hb
    simp only [readControl, hword, List.isEmpty_nil, if_pos, read1, hcf, hge, hrn,
      hhex, hcodec, hw, Option.map_some]
    simp

/-- C3 witness: with a registered font whose `fcharset` is 0, the byte is
decoded with the table encoding. -/
theorem c3_witness :
    readControl (fun _ b => some [b])
      [Frame.mk (some Dest.output) [(wb "f", Val.i 0)]]
      { initCore with fonts := [(0, Font.mk [] Val.null (some (Val.i 0)))] }
      ⟨[], [39, 52, 49, 88]⟩ =
      some ([Frame.mk (some Dest.output) [(wb "f", Val.i 0)]],
        { initCore with fonts := [(0, Font.mk [] Val.null (some (Val.i 0)))] },
        ⟨[49, 52, 39], [88]⟩, [Event.write [65]]) :=
  c3_hex_charset_resolution.2.2.2 (fun _ b => some [b])
    { initCore with fonts := [(0, Font.mk [] Val.null (some (Val.i 0)))] }
    (Frame.mk (some Dest.output) [(wb "f", Val.i 0)]) []
    (Font.mk [] Val.null (some (Val.i 0))) "ansi" [65] 52 49 4 1 [] [88]
    [Frame.mk (some Dest.output) [(wb "f", Val.i 0)]]
    { initCore with fonts := [(0, Font.mk [] Val.null (some (Val.i 0)))] }
    [Event.write [65]] (by decide) (by decide) (by decide) (by decide) (by decide) (by decide)

/-- C8 witness: a concrete second `\pard` is a no-op in state and events. -/
theorem c8_witness :
    handleControl [Frame.mk none []] initCore (wb "pard") none =
      some ([Frame.mk none []], initCore, []) := by
  have h := (c8_pard_idempotent (Frame.mk none [(wb "li", Val.i 3)]) []
    {initCore with numbering := some Numb.init}).2
    [Frame.mk none []] initCore [Event.numberingOff Numb.init] (by decide)
  exact h.1

end Rtf
